import Mathlib

/-!
# Verification of the trapper-photoshop core pipeline

A shallow embedding of the algorithmic core of the trapper-photoshop
plugin (color analysis, single-color extraction, darker-layer mask
compositing, masked morphological dilation, erosion, and trap-size
parsing / interpolation), with theorems settling the frozen claims
about the natural-language specification.

JavaScript numbers are modelled as exact rationals (ℚ); `NaN` results of
`parseFloat` are modelled as `Option.none`.  Pixel buffers (interleaved
RGBA `Uint8ClampedArray`s) are modelled as lists of RGBA quadruples in
the same row-major order; reading channel `idx+3` of the buffer at
linear pixel index `i` is modelled as reading field `.a` of the list
entry at index `i`.  Out-of-range buffer reads, which in JavaScript
yield `undefined` and make every `> 0` comparison false, are modelled by
a default fully transparent pixel where that matches, and by `Option`
lookups where the code compares with `=== 0`.
-/

/-- One RGBA pixel: four 8-bit channels, modelled as naturals. -/
structure Pixel where
  r : ℕ
  g : ℕ
  b : ℕ
  a : ℕ
  deriving DecidableEq, Repr

/-- The fully transparent black pixel, the content of a freshly
allocated `Uint8ClampedArray` and the value JavaScript effectively sees
on out-of-range reads compared with `> 0`. -/
def Pixel.clear : Pixel := ⟨0, 0, 0, 0⟩

/-- A raster: width, height, and a row-major pixel buffer
(`data[y*width + x]` is the pixel at column `x`, row `y`), mirroring the
ImageData-like objects built by `TrappingEngine.createImageData`. -/
structure Raster where
  width : ℕ
  height : ℕ
  data : List Pixel
  deriving DecidableEq, Repr

/-- Read the pixel buffer at a linear pixel index, defaulting to the
transparent pixel out of range (mirrors `data[idx .. idx+3]` reads whose
`undefined` results fail every `> 0` test). -/
def Raster.readLinear (ras : Raster) (i : ℕ) : Pixel :=
  ras.data.getD i Pixel.clear

/-- Read the pixel at column `x`, row `y` (the code's
`idx = (y * width + x) * 4`). -/
def Raster.pix (ras : Raster) (x y : ℕ) : Pixel :=
  ras.readLinear (y * ras.width + x)

/-- A raster is well-formed when its buffer has exactly
width × height pixels (the documented `Raster` invariant). -/
def Raster.wf (ras : Raster) : Prop :=
  ras.data.length = ras.width * ras.height

instance (ras : Raster) : Decidable ras.wf := by
  unfold Raster.wf; infer_instance

/-! ## TrapSizeParser (src/utils/TrapSizeParser.js)

`parse` dispatches, after trimming, on a case-insensitive `pt` suffix,
then on the presence of `/`, and finally parses a plain decimal, exactly
as `TrapSizeParser.parse` does.  `parseFloat` is modelled by
`jsParseFloat`: skip leading whitespace, optional sign, decimal digits
with optional fractional part, optional exponent; the longest valid
prefix is converted and trailing text ignored; no valid prefix gives
`none` (JavaScript's `NaN`).  The `Infinity` literal, which none of the
claims touch, is not modelled. -/

/-- The error kinds of the spec, as surfaced by the thrown `Error`
messages of `TrapSizeParser` and `TrapperController.applyTrapping`. -/
inductive TrapError where
  | invalidFormat
  | divisionByZero
  | negativeValue
  | rangeOrder
  | tooManyColors
  | noSignificantColors
  deriving DecidableEq, Repr

namespace TrapSizeParser

/-- ASCII whitespace recognized by `String.prototype.trim` and
`parseFloat` (the non-ASCII whitespace code points also trimmed by
JavaScript play no role in the claims). -/
def isWs (c : Char) : Bool :=
  c = ' ' || c = '\t' || c = '\n' || c = '\r' || c = '\x0b' || c = '\x0c'

/-- `String.prototype.trim`: drop leading and trailing whitespace. -/
def jsTrim (s : List Char) : List Char :=
  ((s.dropWhile isWs).reverse.dropWhile isWs).reverse

/-- Accumulate a digit string into a natural number. -/
def digitsToNat (l : List Char) : ℕ :=
  l.foldl (fun n c => 10 * n + (c.toNat - '0'.toNat)) 0

/-- `parseFloat`: longest-valid-prefix float parsing, yielding the exact
rational value of the literal, or `none` for JavaScript's `NaN`. -/
def jsParseFloat (s : List Char) : Option ℚ :=
  let s1 := s.dropWhile isWs
  let signAndRest : ℚ × List Char :=
    match s1 with
    | '-' :: t => (-1, t)
    | '+' :: t => (1, t)
    | _ => (1, s1)
  let sign := signAndRest.1
  let s2 := signAndRest.2
  let intPart := s2.takeWhile Char.isDigit
  let rest := s2.dropWhile Char.isDigit
  let fracAndRest : List Char × List Char :=
    match rest with
    | '.' :: t => (t.takeWhile Char.isDigit, t.dropWhile Char.isDigit)
    | _ => ([], rest)
  let fracPart := fracAndRest.1
  let rest2 := fracAndRest.2
  if intPart.isEmpty && fracPart.isEmpty then none
  else
    let mant : ℚ :=
      (digitsToNat intPart : ℚ) + (digitsToNat fracPart : ℚ) / (10 : ℚ) ^ fracPart.length
    let expo : ℤ :=
      match rest2 with
      | e :: t =>
        if e = 'e' || e = 'E' then
          let esignAndRest : ℤ × List Char :=
            match t with
            | '-' :: u => (-1, u)
            | '+' :: u => (1, u)
            | _ => (1, t)
          let edigits := esignAndRest.2.takeWhile Char.isDigit
          if edigits.isEmpty then 0 else esignAndRest.1 * digitsToNat edigits
        else 0
      | [] => 0
    some (sign * mant * (10 : ℚ) ^ expo)

/-- `spec.toLowerCase().endsWith('pt')`: only the last two characters
matter. -/
def endsWithPt (s : List Char) : Bool :=
  match s.reverse with
  | t :: p :: _ => p.toLower = 'p' && t.toLower = 't'
  | _ => false

/-- `TrapSizeParser.parsePoints`: strip the two suffix characters, trim,
parse; `NaN` is an invalid format, negative points are rejected,
otherwise divide by 72. -/
def parsePoints (t : List Char) : Except TrapError ℚ :=
  let pointStr := jsTrim (t.take (t.length - 2))
  match jsParseFloat pointStr with
  | none => .error .invalidFormat
  | some points =>
    if points < 0 then .error .negativeValue
    else .ok (points / 72)

/-- `String.prototype.split` at every occurrence of a separator
character: n separators yield n+1 (possibly empty) parts. -/
def splitOnChar (c : Char) : List Char → List (List Char)
  | [] => [[]]
  | x :: xs =>
    match splitOnChar c xs with
    | [] => [[]]
    | r :: rs => if x = c then [] :: r :: rs else (x :: r) :: rs

/-- `TrapSizeParser.parseFraction`: split on `/`, require exactly two
parts, parse both (trimmed); `NaN` is an invalid format, a zero
denominator is a division by zero, otherwise divide. -/
def parseFraction (t : List Char) : Except TrapError ℚ :=
  match splitOnChar '/' t with
  | [p1, p2] =>
    match jsParseFloat (jsTrim p1), jsParseFloat (jsTrim p2) with
    | some numerator, some denominator =>
      if denominator = 0 then .error .divisionByZero
      else .ok (numerator / denominator)
    | _, _ => .error .invalidFormat
  | _ => .error .invalidFormat

/-- `TrapSizeParser.parseDecimal`: plain `parseFloat`, `NaN` rejected,
value returned unchecked (no sign test in this branch). -/
def parseDecimal (t : List Char) : Except TrapError ℚ :=
  match jsParseFloat t with
  | none => .error .invalidFormat
  | some v => .ok v

/-- `TrapSizeParser.parse`: reject the empty string (falsy), trim, then
dispatch on the `pt` suffix, on `/`, and finally on plain decimal. -/
def parse (spec : String) : Except TrapError ℚ :=
  if spec = "" then .error .invalidFormat
  else
    let t := jsTrim spec.data
    if endsWithPt t then parsePoints t
    else if t.contains '/' then parseFraction t
    else parseDecimal t

/-- `Math.round`: round half toward positive infinity,
`⌊q + 1/2⌋` (`Rat.floor`). -/
def jsRound (q : ℚ) : ℤ := (q + 1 / 2).floor

/-- `TrapSizeParser.inchesToPixels`: `Math.round(inches * dpi)`. -/
def inchesToPixels (inches : ℚ) (dpi : ℚ) : ℤ :=
  jsRound (inches * dpi)

/-- `TrapSizeParser.validateRange`: parse both specs, reject a negative
bound, reject `min > max`, otherwise return the pair. -/
def validateRange (minSpec maxSpec : String) : Except TrapError (ℚ × ℚ) :=
  match parse minSpec with
  | .error e => .error e
  | .ok mn =>
    match parse maxSpec with
    | .error e => .error e
    | .ok mx =>
      if mn < 0 || mx < 0 then .error .negativeValue
      else if mx < mn then .error .rangeOrder
      else .ok (mn, mx)

/-- `TrapSizeParser.calculateLayerTrap`: a single layer returns the
minimum; otherwise interpolate linearly from `maxTrap` (index 0) down to
`minTrap` (index `totalLayers - 1`). -/
def calculateLayerTrap (layerIndex totalLayers : ℕ) (minTrap maxTrap : ℚ) : ℚ :=
  if totalLayers = 1 then minTrap
  else
    let t : ℚ := (layerIndex : ℚ) / ((totalLayers : ℚ) - 1)
    maxTrap - t * (maxTrap - minTrap)

end TrapSizeParser

/-! ## TrappingEngine morphology (src/core/TrappingEngine.js)

`applyDilationWithMask` and `applyErosion` are per-pass pixel maps over
the current intermediate raster: each pass reads only the previous
pass's result (`current`) and produces a fresh buffer (`next`), which
the functional embedding realizes by building each pass's `data` list as
a pure function of the previous raster.  The dilation pass first copies
`current` into `next` and then overwrites qualifying transparent pixels;
here each output pixel is computed directly, with the copied value as
the fall-through result. -/

namespace TrappingEngine

/-- One iteration of the neighbor loop body of `applyDilationWithMask`:
if `(x+dx, y+dy)` is in bounds and opaque in the snapshot, return its
pixel. -/
def checkNeighbor (cur : Raster) (x y : ℕ) (dx dy : ℤ) : Option Pixel :=
  let nx := (x : ℤ) + dx
  let ny := (y : ℤ) + dy
  if 0 ≤ nx ∧ nx < cur.width ∧ 0 ≤ ny ∧ ny < cur.height then
    let q := cur.pix nx.toNat ny.toNat
    if 0 < q.a then some q else none
  else none

/-- The neighbor loop of `applyDilationWithMask` with its `break`: the
first opaque in-bounds neighbor in the fixed order top, right, bottom,
left. -/
def firstOpaqueNeighbor (cur : Raster) (x y : ℕ) : Option Pixel :=
  (checkNeighbor cur x y 0 (-1)).orElse fun _ =>
    (checkNeighbor cur x y 1 0).orElse fun _ =>
      (checkNeighbor cur x y 0 1).orElse fun _ =>
        checkNeighbor cur x y (-1) 0

/-- The mask test of `applyDilationWithMask`:
`mask && mask.data && mask.data[idx + 3] === 0` (an out-of-range read is
`undefined`, which is not `=== 0`, so a too-short mask buffer does not
block). -/
def maskBlocks (mask : Option Raster) (i : ℕ) : Bool :=
  match mask with
  | none => false
  | some m =>
    match m.data.get? i with
    | some p => p.a = 0
    | none => false

/-- The loop body of one dilation pass for the pixel at `(x, y)`: an
already opaque pixel is kept; a transparent pixel blocked by the mask is
kept (it stays the copied snapshot value); otherwise the first opaque
in-bounds neighbor's RGBA is written, and a pixel with none keeps the
copied snapshot value. -/
def dilatePixel (cur : Raster) (mask : Option Raster) (x y : ℕ) : Pixel :=
  let p := cur.pix x y
  if 0 < p.a then p
  else if maskBlocks mask (y * cur.width + x) then p
  else
    match firstOpaqueNeighbor cur x y with
    | some q => q
    | none => p

/-- One full dilation pass: the fresh `next` buffer, every pixel
computed from the frozen `current` snapshot. -/
def dilatePass (cur : Raster) (mask : Option Raster) : Raster :=
  ⟨cur.width, cur.height,
    (List.range (cur.height * cur.width)).map fun i =>
      dilatePixel cur mask (i % cur.width) (i / cur.width)⟩

/-- The `for (let iteration = 0; ...)` pass loop of
`applyDilationWithMask`. -/
def dilateLoop (mask : Option Raster) : ℕ → Raster → Raster
  | 0, cur => cur
  | n + 1, cur => dilateLoop mask n (dilatePass cur mask)

/-- `TrappingEngine.applyDilationWithMask`: radius ≤ 0 returns the input
unchanged, otherwise `radius` sequential one-pixel passes. -/
def applyDilationWithMask (sourceData : Raster) (radiusPixels : ℕ)
    (mask : Option Raster) : Raster :=
  if radiusPixels = 0 then sourceData
  else dilateLoop mask radiusPixels sourceData

/-- The neighbor loop of one erosion pass: `keepPixel` stays true only
if all four axis-aligned neighbors are in bounds and opaque in the
snapshot. -/
def allNeighborsOpaque (cur : Raster) (x y : ℕ) : Bool :=
  [((0 : ℤ), (-1 : ℤ)), (1, 0), (0, 1), (-1, 0)].all fun d =>
    let nx := (x : ℤ) + d.1
    let ny := (y : ℤ) + d.2
    if 0 ≤ nx ∧ nx < cur.width ∧ 0 ≤ ny ∧ ny < cur.height then
      0 < (cur.pix nx.toNat ny.toNat).a
    else false

/-- The loop body of one erosion pass for the pixel at `(x, y)`: the
`next` buffer starts zeroed, and a pixel is written back (with its exact
RGBA) only if it is opaque in the snapshot and keeps all four neighbors. -/
def erodePixel (cur : Raster) (x y : ℕ) : Pixel :=
  let p := cur.pix x y
  if p.a = 0 then Pixel.clear
  else if allNeighborsOpaque cur x y then p
  else Pixel.clear

/-- One full erosion pass. -/
def erodePass (cur : Raster) : Raster :=
  ⟨cur.width, cur.height,
    (List.range (cur.height * cur.width)).map fun i =>
      erodePixel cur (i % cur.width) (i / cur.width)⟩

/-- The pass loop of `applyErosion`. -/
def erodeLoop : ℕ → Raster → Raster
  | 0, cur => cur
  | n + 1, cur => erodeLoop n (erodePass cur)

/-- `TrappingEngine.applyErosion`: radius ≤ 0 returns the input
unchanged, otherwise `radius` sequential one-pixel erosion passes. -/
def applyErosion (sourceData : Raster) (radiusPixels : ℕ) : Raster :=
  if radiusPixels = 0 then sourceData
  else erodeLoop radiusPixels sourceData

end TrappingEngine

/-- A palette entry of `analyzeColors`: exact RGB key, running pixel
count, lightness computed once at first occurrence. -/
structure ColorEntry where
  r : ℕ
  g : ℕ
  b : ℕ
  count : ℕ
  lightness : ℚ
  deriving DecidableEq, Repr

namespace TrappingEngine

/-- `TrappingEngine.calculateLightness`: the 0.299/0.587/0.114 weighted
grayscale value, exact over ℚ. -/
def calculateLightness (r g b : ℕ) : ℚ :=
  (299 / 1000 : ℚ) * r + (587 / 1000 : ℚ) * g + (114 / 1000 : ℚ) * b

/-- Update the palette with one opaque pixel: increment the entry with
the matching exact (r,g,b) key, or append a fresh entry with count 1
(JavaScript `Map`s preserve insertion order, so the palette is a list in
first-occurrence order). -/
def bumpColor : List ColorEntry → Pixel → List ColorEntry
  | [], p => [⟨p.r, p.g, p.b, 1, calculateLightness p.r p.g p.b⟩]
  | e :: rest, p =>
    if e.r = p.r ∧ e.g = p.g ∧ e.b = p.b then
      { e with count := e.count + 1 } :: rest
    else e :: bumpColor rest p

/-- The loop body of `analyzeColors` for one pixel: fully transparent
pixels (`a === 0`) are skipped entirely. -/
def addPixelToPalette (pal : List ColorEntry) (p : Pixel) : List ColorEntry :=
  if p.a = 0 then pal else bumpColor pal p

/-- The result record of `TrappingEngine.analyzeColors`. -/
structure ColorAnalysis where
  colors : List ColorEntry
  totalPixels : ℕ
  uniqueColors : ℕ
  deriving DecidableEq, Repr

/-- The row-major pixel sequence scanned by the nested `y`/`x` loops of
`analyzeColors` (linear index `y*width + x` runs over
`0 .. height*width - 1`). -/
def pixelScan (ras : Raster) : List Pixel :=
  (List.range (ras.height * ras.width)).map ras.readLinear

/-- `TrappingEngine.analyzeColors`: scan every pixel, skip transparent
ones, accumulate the palette; `totalPixels` is `width * height`, the
whole canvas. -/
def analyzeColors (imageData : Raster) : ColorAnalysis :=
  let colors := (pixelScan imageData).foldl addPixelToPalette []
  ⟨colors, imageData.width * imageData.height, colors.length⟩

/-- Spec-side: the sum of all palette pixel counts. -/
def sumCounts (l : List ColorEntry) : ℕ :=
  (l.map ColorEntry.count).sum

/-- Spec-side: the number of opaque (`alpha > 0`) pixels in a buffer. -/
def countOpaque (l : List Pixel) : ℕ :=
  l.countP fun p => decide (0 < p.a)

end TrappingEngine

/-! ## TrapperController (src/core/TrapperController.js) -/

namespace TrapperController

/-- The significance threshold of `applyTrapping`:
`Math.max(100, Math.round(totalPixels * 0.0001))`. -/
def minPixelThreshold (totalPixels : ℕ) : ℤ :=
  max 100 (TrapSizeParser.jsRound ((totalPixels : ℚ) * (1 / 10000)))

/-- The significance filter of `applyTrapping`:
`colors.filter(c => c.count >= minPixelThreshold)`. -/
def significantColors (colors : List ColorEntry) (totalPixels : ℕ) : List ColorEntry :=
  colors.filter fun c => minPixelThreshold totalPixels ≤ (c.count : ℤ)

/-- The palette-size checks of `applyTrapping`, in source order: more
than 10 significant colors is `TooManyColors`, zero is
`NoSignificantColors`, otherwise the filtered list flows on. -/
def checkSignificantColors (colors : List ColorEntry) (totalPixels : ℕ) :
    Except TrapError (List ColorEntry) :=
  let sig := significantColors colors totalPixels
  if 10 < sig.length then .error .tooManyColors
  else if sig.length = 0 then .error .noSignificantColors
  else .ok sig

/-- `TrapperController.extractSingleColor`: a raster of identical
dimensions; each source pixel with `a > 0` and an exact (r,g,b) match is
written with alpha forced to 255, every other output pixel stays the
zero fill of the fresh buffer. -/
def extractSingleColor (sourceData : Raster) (color : ColorEntry) : Raster :=
  ⟨sourceData.width, sourceData.height,
    (List.range (sourceData.height * sourceData.width)).map fun i =>
      let p := sourceData.readLinear i
      if 0 < p.a ∧ p.r = color.r ∧ p.g = color.g ∧ p.b = color.b then
        ⟨p.r, p.g, p.b, 255⟩
      else Pixel.clear⟩

/-- One entry of the `colorLayers` array built during separation: the
color and the immutable per-color extraction (`pixelData`).  The
dilation result is written to the host layer, never back into
`pixelData`, so later mask builds always see the original extraction. -/
structure ColorLayer where
  color : ColorEntry
  pixelData : Raster
  deriving DecidableEq, Repr

instance : Inhabited ColorLayer :=
  ⟨⟨⟨0, 0, 0, 0, 0⟩, ⟨0, 0, []⟩⟩⟩

/-- The inner double loop of `createDarkerColorMaskFromLayers` for one
darker layer: where that layer's raster is opaque, the mask cell becomes
white and opaque; elsewhere the accumulated mask data is kept. -/
def addDarkerLayer (w h : ℕ) (maskData : List Pixel) (darker : Raster) : List Pixel :=
  (List.range (h * w)).map fun i =>
    if 0 < (darker.data.getD i Pixel.clear).a then ⟨255, 255, 255, 255⟩
    else maskData.getD i Pixel.clear

/-- `TrapperController.createDarkerColorMaskFromLayers`: start from a
zero-filled buffer and OR in, in order, every layer with index greater
than `currentIndex` (the darker layers, read from their stored original
`pixelData`). -/
def createDarkerColorMaskFromLayers (w h : ℕ) (currentIndex : ℕ)
    (colorLayers : List ColorLayer) : Raster :=
  ⟨w, h,
    (colorLayers.drop (currentIndex + 1)).foldl
      (fun md dl => addDarkerLayer w h md dl.pixelData)
      (List.replicate (h * w) Pixel.clear)⟩

/-- `TrapperController.applyTrappingToLayer` (the pixel computation):
dilate the layer's stored original extraction under the darker-layer
mask built from the other layers' stored original extractions. -/
def applyTrappingToLayer (w h : ℕ) (trapPixels : ℕ) (layerIndex : ℕ)
    (colorLayers : List ColorLayer) : Raster :=
  TrappingEngine.applyDilationWithMask
    (colorLayers.getD layerIndex default).pixelData
    trapPixels
    (some (createDarkerColorMaskFromLayers w h layerIndex colorLayers))

end TrapperController

/-- Spec-side: the in-bounds 4-connected neighbor pixels of `(x, y)` in
the fixed examination order up, right, down, left. -/
def neighborPixelsInOrder (cur : Raster) (x y : ℕ) : List Pixel :=
  [((0 : ℤ), (-1 : ℤ)), (1, 0), (0, 1), (-1, 0)].filterMap fun d =>
    let nx := (x : ℤ) + d.1
    let ny := (y : ℤ) + d.2
    if 0 ≤ nx ∧ nx < cur.width ∧ 0 ≤ ny ∧ ny < cur.height then
      some (cur.pix nx.toNat ny.toNat)
    else none

/-! ## Concrete fixtures used by witnesses and counterexamples -/

/-- An opaque red pixel. -/
def redPixel : Pixel := ⟨255, 0, 0, 255⟩

/-- An opaque black pixel. -/
def blackPixel : Pixel := ⟨0, 0, 0, 255⟩

/-- A 2×1 raster: red at (0,0), transparent at (1,0). -/
def rasterRT : Raster := ⟨2, 1, [redPixel, Pixel.clear]⟩

/-- A 5×5 raster whose only opaque content is a 3×3 red block centered
at (2,2). -/
def block5 : Raster :=
  ⟨5, 5, (List.range 25).map fun i =>
    if i ∈ [6, 7, 8, 11, 12, 13, 16, 17, 18] then redPixel else Pixel.clear⟩

/-- A 5×5 raster opaque only at its center pixel (2,2). -/
def center5 : Raster :=
  ⟨5, 5, (List.range 25).map fun i => if i = 12 then redPixel else Pixel.clear⟩

/-- The palette entry for pure red. -/
def redEntry : ColorEntry :=
  ⟨255, 0, 0, 1, TrappingEngine.calculateLightness 255 0 0⟩

/-- A two-layer plan over a 1×1 document: a lighter red layer (index 0)
and a darker black layer (index 1), both opaque at the single pixel. -/
def layersWB : List TrapperController.ColorLayer :=
  [⟨⟨255, 0, 0, 200, TrappingEngine.calculateLightness 255 0 0⟩, ⟨1, 1, [redPixel]⟩⟩,
   ⟨⟨0, 0, 0, 300, TrappingEngine.calculateLightness 0 0 0⟩, ⟨1, 1, [blackPixel]⟩⟩]

/-! ## Indexing helper lemmas -/

lemma getD_range_map (f : ℕ → Pixel) {n i : ℕ} (h : i < n) :
    ((List.range n).map f).getD i Pixel.clear = f i := by
  rw [List.getD_eq_getElem?_getD]
  simp [List.getElem?_map, List.getElem?_range, h]

lemma getD_range_map_ge (f : ℕ → Pixel) {n i : ℕ} (h : ¬ i < n) :
    ((List.range n).map f).getD i Pixel.clear = Pixel.clear := by
  rw [List.getD_eq_getElem?_getD,
    List.getElem?_eq_none (by simpa using Nat.le_of_not_lt h)]
  rfl

lemma index_lt {w h x y : ℕ} (hx : x < w) (hy : y < h) : y * w + x < h * w :=
  calc y * w + x < (y + 1) * w := by nlinarith
  _ ≤ h * w := Nat.mul_le_mul_right w (by omega)

lemma index_mod {w x : ℕ} (y : ℕ) (hx : x < w) : (y * w + x) % w = x := by
  rw [Nat.add_comm, Nat.add_mul_mod_self_right, Nat.mod_eq_of_lt hx]

lemma index_div {w x : ℕ} (y : ℕ) (hx : x < w) : (y * w + x) / w = y := by
  rw [Nat.add_comm, Nat.add_mul_div_right _ _ (by omega : 0 < w),
    Nat.div_eq_of_lt hx, Nat.zero_add]

lemma getD_range_map_index {w h x y : ℕ} (f : ℕ → Pixel) (hx : x < w) (hy : y < h) :
    ((List.range (h * w)).map fun i => f i).getD (y * w + x) Pixel.clear
      = f (y * w + x) :=
  getD_range_map f (index_lt hx hy)

/-! ## Per-pass pixel lemmas for dilation and erosion -/

namespace TrappingEngine

lemma dilatePass_width (cur : Raster) (mask : Option Raster) :
    (dilatePass cur mask).width = cur.width := rfl

lemma dilatePass_height (cur : Raster) (mask : Option Raster) :
    (dilatePass cur mask).height = cur.height := rfl

lemma dilatePass_pix (cur : Raster) (mask : Option Raster) {x y : ℕ}
    (hx : x < cur.width) (hy : y < cur.height) :
    (dilatePass cur mask).pix x y = dilatePixel cur mask x y := by
  show ((List.range (cur.height * cur.width)).map fun i =>
      dilatePixel cur mask (i % cur.width) (i / cur.width)).getD
      (y * cur.width + x) Pixel.clear = _
  rw [getD_range_map _ (index_lt hx hy), index_mod y hx, index_div y hx]

lemma erodePass_width (cur : Raster) : (erodePass cur).width = cur.width := rfl

lemma erodePass_height (cur : Raster) : (erodePass cur).height = cur.height := rfl

lemma erodePass_pix (cur : Raster) {x y : ℕ}
    (hx : x < cur.width) (hy : y < cur.height) :
    (erodePass cur).pix x y = erodePixel cur x y := by
  show ((List.range (cur.height * cur.width)).map fun i =>
      erodePixel cur (i % cur.width) (i / cur.width)).getD
      (y * cur.width + x) Pixel.clear = _
  rw [getD_range_map _ (index_lt hx hy), index_mod y hx, index_div y hx]

lemma dilateLoop_width (mask : Option Raster) (n : ℕ) (cur : Raster) :
    (dilateLoop mask n cur).width = cur.width := by
  induction n generalizing cur with
  | zero => rfl
  | succ n ih => rw [dilateLoop, ih, dilatePass_width]

lemma dilateLoop_height (mask : Option Raster) (n : ℕ) (cur : Raster) :
    (dilateLoop mask n cur).height = cur.height := by
  induction n generalizing cur with
  | zero => rfl
  | succ n ih => rw [dilateLoop, ih, dilatePass_height]

lemma checkNeighbor_some {cur : Raster} {x y : ℕ} {dx dy : ℤ} {q : Pixel}
    (h : checkNeighbor cur x y dx dy = some q) :
    ∃ x' y', x' < cur.width ∧ y' < cur.height ∧ cur.pix x' y' = q ∧ 0 < q.a ∧
      (x' : ℤ) = x + dx ∧ (y' : ℤ) = y + dy := by
  simp only [checkNeighbor] at h
  split_ifs at h with h1 h2
  · obtain ⟨hb1, hb2, hb3, hb4⟩ := h1
    injection h with h
    refine ⟨((x : ℤ) + dx).toNat, ((y : ℤ) + dy).toNat, by omega, by omega, h, ?_, by omega, by omega⟩
    rw [h] at h2; exact h2

lemma firstOpaqueNeighbor_some {cur : Raster} {x y : ℕ} {q : Pixel}
    (h : firstOpaqueNeighbor cur x y = some q) :
    ∃ x' y', x' < cur.width ∧ y' < cur.height ∧ cur.pix x' y' = q ∧ 0 < q.a ∧
      ((x : ℤ) - x').natAbs + ((y : ℤ) - y').natAbs = 1 := by
  have dist1 : ∀ (dx dy : ℤ), dx.natAbs + dy.natAbs = 1 →
      ∀ x' y' : ℕ, (x' : ℤ) = x + dx → (y' : ℤ) = y + dy →
      ((x : ℤ) - x').natAbs + ((y : ℤ) - y').natAbs = 1 := by
    intro dx dy hd x' y' hx' hy'
    have e1 : (x : ℤ) - x' = -dx := by omega
    have e2 : (y : ℤ) - y' = -dy := by omega
    rw [e1, e2, Int.natAbs_neg, Int.natAbs_neg]; exact hd
  unfold firstOpaqueNeighbor at h
  rcases h1 : checkNeighbor cur x y 0 (-1) with _ | q1
  · rcases h2 : checkNeighbor cur x y 1 0 with _ | q2
    · rcases h3 : checkNeighbor cur x y 0 1 with _ | q3
      · rcases h4 : checkNeighbor cur x y (-1) 0 with _ | q4
        · rw [h1, h2, h3, h4] at h; exact absurd h (by simp [Option.orElse])
        · rw [h1, h2, h3, h4] at h
          simp only [Option.orElse] at h
          injection h with h; subst h
          obtain ⟨x', y', ha, hb, hc, hd, he, hf⟩ := checkNeighbor_some h4
          exact ⟨x', y', ha, hb, hc, hd, dist1 (-1) 0 (by decide) x' y' he hf⟩
      · rw [h1, h2, h3] at h
        simp only [Option.orElse] at h
        injection h with h; subst h
        obtain ⟨x', y', ha, hb, hc, hd, he, hf⟩ := checkNeighbor_some h3
        exact ⟨x', y', ha, hb, hc, hd, dist1 0 1 (by decide) x' y' he hf⟩
    · rw [h1, h2] at h
      simp only [Option.orElse] at h
      injection h with h; subst h
      obtain ⟨x', y', ha, hb, hc, hd, he, hf⟩ := checkNeighbor_some h2
      exact ⟨x', y', ha, hb, hc, hd, dist1 1 0 (by decide) x' y' he hf⟩
  · rw [h1] at h
    simp only [Option.orElse] at h
    injection h with h; subst h
    obtain ⟨x', y', ha, hb, hc, hd, he, hf⟩ := checkNeighbor_some h1
    exact ⟨x', y', ha, hb, hc, hd, dist1 0 (-1) (by decide) x' y' he hf⟩

lemma dilatePass_opaque_origin {cur : Raster} {mask : Option Raster} {x y : ℕ}
    (hx : x < cur.width) (hy : y < cur.height)
    (h : 0 < ((dilatePass cur mask).pix x y).a) :
    0 < (cur.pix x y).a ∨
      (maskBlocks mask (y * cur.width + x) = false ∧
       ∃ x' y', x' < cur.width ∧ y' < cur.height ∧ 0 < (cur.pix x' y').a ∧
         ((x : ℤ) - x').natAbs + ((y : ℤ) - y').natAbs = 1) := by
  rw [dilatePass_pix cur mask hx hy] at h
  unfold dilatePixel at h
  by_cases h1 : 0 < (cur.pix x y).a
  · exact Or.inl h1
  · right
    rw [if_neg h1] at h
    by_cases h2 : maskBlocks mask (y * cur.width + x) = true
    · rw [if_pos h2] at h; exact absurd h h1
    · rw [if_neg h2] at h
      refine ⟨by simpa using h2, ?_⟩
      rcases hf : firstOpaqueNeighbor cur x y with _ | q
      · rw [hf] at h; exact absurd h h1
      · rw [hf] at h
        obtain ⟨x', y', ha, hb, hc, _, hd⟩ := firstOpaqueNeighbor_some hf
        exact ⟨x', y', ha, hb, hc ▸ h, hd⟩

lemma natAbs_tri (a b c : ℤ) : (a - c).natAbs ≤ (a - b).natAbs + (b - c).natAbs := by
  have e : a - c = (a - b) + (b - c) := by ring
  rw [e]; exact Int.natAbs_add_le _ _

lemma dilateLoop_opaque_origin (mask : Option Raster) (n : ℕ) :
    ∀ (cur : Raster) {x y : ℕ}, x < cur.width → y < cur.height →
      0 < ((dilateLoop mask n cur).pix x y).a →
      ∃ x' y', x' < cur.width ∧ y' < cur.height ∧ 0 < (cur.pix x' y').a ∧
        ((x : ℤ) - x').natAbs + ((y : ℤ) - y').natAbs ≤ n := by
  induction n with
  | zero =>
    intro cur x y hx hy h
    exact ⟨x, y, hx, hy, h, by simp⟩
  | succ n ih =>
    intro cur x y hx hy h
    rw [dilateLoop] at h
    obtain ⟨x1, y1, hx1, hy1, hop1, hd1⟩ := ih (dilatePass cur mask) hx hy h
    have hx1' : x1 < cur.width := hx1
    have hy1' : y1 < cur.height := hy1
    rcases dilatePass_opaque_origin hx1' hy1' hop1 with h' | ⟨_, x2, y2, hx2, hy2, hop2, hd2⟩
    · exact ⟨x1, y1, hx1', hy1', h', by omega⟩
    · refine ⟨x2, y2, hx2, hy2, hop2, ?_⟩
      have t1 := natAbs_tri (x : ℤ) x1 x2
      have t2 := natAbs_tri (y : ℤ) y1 y2
      omega

set_option maxHeartbeats 1000000 in
lemma firstOpaqueNeighbor_eq_find (cur : Raster) (x y : ℕ) :
    firstOpaqueNeighbor cur x y =
      (neighborPixelsInOrder cur x y).find? fun q => decide (0 < q.a) := by
  have key : ∀ (s : List (ℤ × ℤ)),
      (s.map fun d => checkNeighbor cur x y d.1 d.2).foldr
          (fun c acc => c.orElse fun _ => acc) none
        = ((s.filterMap fun d =>
            let nx := (x : ℤ) + d.1
            let ny := (y : ℤ) + d.2
            if 0 ≤ nx ∧ nx < cur.width ∧ 0 ≤ ny ∧ ny < cur.height then
              some (cur.pix nx.toNat ny.toNat)
            else none).find? fun q => decide (0 < q.a)) := by
    intro s
    induction s with
    | nil => simp
    | cons d rest ih =>
      simp only [List.map_cons, List.foldr_cons, List.filterMap_cons]
      rw [ih]
      unfold checkNeighbor
      by_cases hb : 0 ≤ (x : ℤ) + d.1 ∧ (x : ℤ) + d.1 < cur.width ∧
          0 ≤ (y : ℤ) + d.2 ∧ (y : ℤ) + d.2 < cur.height
      · simp only [hb, if_true]
        by_cases ha : 0 < (cur.pix ((x : ℤ) + d.1).toNat ((y : ℤ) + d.2).toNat).a
        · simp [ha, List.find?, Option.orElse]
        · simp [ha, List.find?, Option.orElse]
      · simp [hb, Option.orElse]
  have last : (checkNeighbor cur x y (-1) 0).orElse (fun _ => none)
      = checkNeighbor cur x y (-1) 0 := by
    cases checkNeighbor cur x y (-1) 0 <;> rfl
  have h4 := key [((0 : ℤ), (-1 : ℤ)), (1, 0), (0, 1), (-1, 0)]
  simp only [List.map_cons, List.map_nil, List.foldr_cons, List.foldr_nil] at h4
  rw [last] at h4
  simpa [firstOpaqueNeighbor, neighborPixelsInOrder] using h4

lemma dilateLoop_mask_invariant (mask : Option Raster) (n : ℕ) :
    ∀ (cur : Raster) {x y : ℕ}, x < cur.width → y < cur.height →
      0 < ((dilateLoop mask n cur).pix x y).a →
      0 < (cur.pix x y).a ∨ maskBlocks mask (y * cur.width + x) = false := by
  induction n with
  | zero =>
    intro cur x y _ _ h
    exact Or.inl h
  | succ n ih =>
    intro cur x y hx hy h
    rw [dilateLoop] at h
    rcases ih (dilatePass cur mask) hx hy h with h' | h'
    · rcases dilatePass_opaque_origin hx hy h' with h'' | ⟨hb, _⟩
      · exact Or.inl h''
      · exact Or.inr hb
    · exact Or.inr h'

lemma ite_false_eq_and (c : Prop) [Decidable c] (b : Bool) :
    (if c then b else false) = (decide c && b) := by
  split_ifs with h <;> simp [h]

lemma allNeighborsOpaque_iff (cur : Raster) (x y : ℕ) :
    allNeighborsOpaque cur x y = true ↔
      ((0 < y ∧ 0 < (cur.pix x (y - 1)).a) ∧
       (x + 1 < cur.width ∧ 0 < (cur.pix (x + 1) y).a) ∧
       (y + 1 < cur.height ∧ 0 < (cur.pix x (y + 1)).a) ∧
       (0 < x ∧ 0 < (cur.pix (x - 1) y).a)) := by
  unfold allNeighborsOpaque
  simp only [List.all_cons, List.all_nil, Bool.and_true, ite_false_eq_and,
    Bool.and_eq_true, decide_eq_true_eq]
  rw [show ((x : ℤ) + 0).toNat = x by omega,
    show ((x : ℤ) + 1).toNat = x + 1 by omega,
    show ((x : ℤ) + (-1)).toNat = x - 1 by omega,
    show ((y : ℤ) + 0).toNat = y by omega,
    show ((y : ℤ) + 1).toNat = y + 1 by omega,
    show ((y : ℤ) + (-1)).toNat = y - 1 by omega]
  constructor
  · rintro ⟨⟨c1, o1⟩, ⟨c2, o2⟩, ⟨c3, o3⟩, ⟨c4, o4⟩⟩
    exact ⟨⟨by omega, o1⟩, ⟨by omega, o2⟩, ⟨by omega, o3⟩, ⟨by omega, o4⟩⟩
  · rintro ⟨⟨c1, o1⟩, ⟨c2, o2⟩, ⟨c3, o3⟩, ⟨c4, o4⟩⟩
    exact ⟨⟨⟨by omega, by omega, by omega, by omega⟩, o1⟩,
      ⟨⟨by omega, by omega, by omega, by omega⟩, o2⟩,
      ⟨⟨by omega, by omega, by omega, by omega⟩, o3⟩,
      ⟨⟨by omega, by omega, by omega, by omega⟩, o4⟩⟩

end TrappingEngine

/-- C1: a pixel opaque in the output of `applyDilationWithMask` (for a
same-sized mask, or no mask) is within `radius` 4-connected steps
(Manhattan distance, since the grid is an obstacle-free rectangle) of a
pixel opaque in the input raster, and is either opaque in the input
already or at a cell where the mask is absent or has alpha > 0 — so no
pixel at which the mask is transparent becomes opaque as a result of the
call. -/
theorem dilation_reach_and_mask_spec (src : Raster) (radius : ℕ) (mask : Option Raster)
    (hm : ∀ m, mask = some m → m.width = src.width ∧ m.height = src.height ∧ m.wf)
    (x y : ℕ) (hx : x < src.width) (hy : y < src.height)
    (hop : 0 < ((TrappingEngine.applyDilationWithMask src radius mask).pix x y).a) :
    (∃ x' y', x' < src.width ∧ y' < src.height ∧ 0 < (src.pix x' y').a ∧
      ((x : ℤ) - x').natAbs + ((y : ℤ) - y').natAbs ≤ radius)
    ∧ (0 < (src.pix x y).a ∨ ∀ m, mask = some m → 0 < (m.pix x y).a) := by
  unfold TrappingEngine.applyDilationWithMask at hop
  by_cases hr : radius = 0
  · rw [if_pos hr] at hop
    exact ⟨⟨x, y, hx, hy, hop, by simp⟩, Or.inl hop⟩
  · rw [if_neg hr] at hop
    refine ⟨TrappingEngine.dilateLoop_opaque_origin mask radius src hx hy hop, ?_⟩
    rcases TrappingEngine.dilateLoop_mask_invariant mask radius src hx hy hop with h | h
    · exact Or.inl h
    · right
      intro m hm'
      obtain ⟨hw, hh, hwf⟩ := hm m hm'
      unfold Raster.wf at hwf
      have hi : y * src.width + x < m.data.length := by
        rw [hwf, Nat.mul_comm m.width m.height, hh, hw]
        exact index_lt hx hy
      rw [hm'] at h
      simp only [TrappingEngine.maskBlocks, List.get?_eq_getElem?,
        List.getElem?_eq_getElem hi, decide_eq_false_iff_not] at h
      show 0 < (m.pix x y).a
      unfold Raster.pix Raster.readLinear
      rw [hw, List.getD_eq_getElem?_getD, List.getElem?_eq_getElem hi]
      simp only [Option.getD_some]
      omega

/-- Witness for C1: a 2×1 raster with red at (0,0), no mask, radius 1;
the dilated pixel at (1,0) is opaque and indeed one step from an opaque
source pixel. -/
theorem dilation_reach_and_mask_spec_witness :
    (∃ x' y', x' < rasterRT.width ∧ y' < rasterRT.height ∧ 0 < (rasterRT.pix x' y').a ∧
      ((1 : ℤ) - x').natAbs + ((0 : ℤ) - y').natAbs ≤ 1)
    ∧ (0 < (rasterRT.pix 1 0).a ∨ ∀ m, (none : Option Raster) = some m → 0 < (m.pix 1 0).a) := by
  have := dilation_reach_and_mask_spec rasterRT 1 none
    (by intro m hm; cases hm) 1 0 (by decide) (by decide) (by decide)
  simpa using this

/-- C3: one dilation pass (a pure function of the frozen previous-pass
raster, written into a fresh buffer) carries every opaque snapshot pixel
over unchanged; gives every transparent pixel permitted by the mask the
full RGBA of the first opaque in-bounds neighbor under the fixed
examination order up, right, down, left (`firstOpaqueNeighbor` equals
`find?` over the in-bounds neighbor pixels in that order); and leaves a
transparent pixel with no opaque in-bounds neighbor transparent. -/
theorem dilate_pass_semantics (cur : Raster) (mask : Option Raster) (x y : ℕ)
    (hx : x < cur.width) (hy : y < cur.height) :
    (0 < (cur.pix x y).a →
      (TrappingEngine.dilatePass cur mask).pix x y = cur.pix x y)
    ∧ ((cur.pix x y).a = 0 →
        TrappingEngine.maskBlocks mask (y * cur.width + x) = false →
        ∀ q, TrappingEngine.firstOpaqueNeighbor cur x y = some q →
          (TrappingEngine.dilatePass cur mask).pix x y = q)
    ∧ ((cur.pix x y).a = 0 →
        TrappingEngine.firstOpaqueNeighbor cur x y = none →
        ((TrappingEngine.dilatePass cur mask).pix x y).a = 0)
    ∧ TrappingEngine.firstOpaqueNeighbor cur x y =
        (neighborPixelsInOrder cur x y).find? fun q => decide (0 < q.a) := by
  refine ⟨?_, ?_, ?_, TrappingEngine.firstOpaqueNeighbor_eq_find cur x y⟩
  · intro h
    rw [TrappingEngine.dilatePass_pix cur mask hx hy]
    unfold TrappingEngine.dilatePixel
    rw [if_pos h]
  · intro h0 hmb q hq
    rw [TrappingEngine.dilatePass_pix cur mask hx hy]
    unfold TrappingEngine.dilatePixel
    rw [if_neg (by omega), if_neg (by simp [hmb]), hq]
  · intro h0 hq
    rw [TrappingEngine.dilatePass_pix cur mask hx hy]
    unfold TrappingEngine.dilatePixel
    rw [if_neg (by omega), hq]
    by_cases hmb : TrappingEngine.maskBlocks mask (y * cur.width + x)
    · rw [if_pos hmb]; exact h0
    · rw [if_neg hmb]; exact h0

/-- Witness for C3: in the 2×1 raster with red at (0,0), the transparent
pixel (1,0) receives red — its first (and only) opaque neighbor under
the fixed order — in a single unmasked pass. -/
theorem dilate_pass_semantics_witness :
    (TrappingEngine.dilatePass rasterRT none).pix 1 0 = redPixel :=
  (dilate_pass_semantics rasterRT none 1 0 (by decide) (by decide)).2.1
    (by decide) (by decide) redPixel (by decide)

/-- C8: one erosion pass keeps a pixel opaque iff it was opaque in the
pre-pass snapshot and all four axis-aligned neighbors are in bounds and
opaque there (kept pixels retain their exact RGBA); every image-edge
pixel becomes transparent in a single pass; and eroding the 5×5 raster
holding a single 3×3 opaque block with radius 1 leaves exactly the
center pixel opaque. -/
theorem erosion_pass_spec (cur : Raster) (x y : ℕ)
    (hx : x < cur.width) (hy : y < cur.height) :
    (0 < ((TrappingEngine.erodePass cur).pix x y).a ↔
      0 < (cur.pix x y).a ∧
      ((0 < y ∧ 0 < (cur.pix x (y - 1)).a) ∧
       (x + 1 < cur.width ∧ 0 < (cur.pix (x + 1) y).a) ∧
       (y + 1 < cur.height ∧ 0 < (cur.pix x (y + 1)).a) ∧
       (0 < x ∧ 0 < (cur.pix (x - 1) y).a)))
    ∧ (0 < ((TrappingEngine.erodePass cur).pix x y).a →
        (TrappingEngine.erodePass cur).pix x y = cur.pix x y)
    ∧ (x = 0 ∨ y = 0 ∨ x + 1 = cur.width ∨ y + 1 = cur.height →
        ((TrappingEngine.erodePass cur).pix x y).a = 0)
    ∧ TrappingEngine.applyErosion block5 1 = center5 := by
  have hpix := TrappingEngine.erodePass_pix cur hx hy
  have main : 0 < ((TrappingEngine.erodePass cur).pix x y).a ↔
      0 < (cur.pix x y).a ∧
      ((0 < y ∧ 0 < (cur.pix x (y - 1)).a) ∧
       (x + 1 < cur.width ∧ 0 < (cur.pix (x + 1) y).a) ∧
       (y + 1 < cur.height ∧ 0 < (cur.pix x (y + 1)).a) ∧
       (0 < x ∧ 0 < (cur.pix (x - 1) y).a)) := by
    rw [hpix]
    unfold TrappingEngine.erodePixel
    by_cases h0 : (cur.pix x y).a = 0
    · simp [h0, Pixel.clear]
    · rw [if_neg h0]
      by_cases hall : TrappingEngine.allNeighborsOpaque cur x y
      · rw [if_pos hall]
        rw [TrappingEngine.allNeighborsOpaque_iff] at hall
        simp [Nat.pos_of_ne_zero h0, hall]
      · rw [if_neg hall]
        rw [TrappingEngine.allNeighborsOpaque_iff] at hall
        simp [Pixel.clear, hall]
  refine ⟨main, ?_, ?_, by decide⟩
  · intro h
    rw [hpix] at h ⊢
    unfold TrappingEngine.erodePixel at h ⊢
    by_cases h0 : (cur.pix x y).a = 0
    · rw [if_pos h0] at h; exact absurd h (by simp [Pixel.clear])
    · rw [if_neg h0] at h ⊢
      by_cases hall : TrappingEngine.allNeighborsOpaque cur x y
      · rw [if_pos hall]
      · rw [if_neg hall] at h; exact absurd h (by simp [Pixel.clear])
  · intro hedge
    by_contra hne
    have hpos : 0 < ((TrappingEngine.erodePass cur).pix x y).a := by omega
    have := main.mp hpos
    omega

/-- Witness for C8: instantiated at the 3×3 block fixture; radius-1
erosion leaves exactly the center pixel of `block5`. -/
theorem erosion_pass_spec_witness :
    TrappingEngine.applyErosion block5 1 = center5 :=
  (erosion_pass_spec block5 0 0 (by decide) (by decide)).2.2.2

lemma ratFloor_eq_intFloor (q : ℚ) : q.floor = ⌊q⌋ := rfl

lemma getD_replicate_clear (n i : ℕ) :
    (List.replicate n Pixel.clear).getD i Pixel.clear = Pixel.clear := by
  rw [List.getD_eq_getElem?_getD, List.getElem?_replicate]
  split_ifs <;> rfl

lemma getD_mem {α : Type} [Inhabited α] {l : List α} {j : ℕ} (hj : j < l.length) :
    l.getD j default ∈ l := by
  rw [List.getD_eq_getElem?_getD, List.getElem?_eq_getElem hj]
  exact List.getElem_mem hj

namespace TrapperController

lemma addDarkerLayer_getD (w h : ℕ) (md : List Pixel) (darker : Raster) {i : ℕ}
    (hi : i < h * w) :
    (addDarkerLayer w h md darker).getD i Pixel.clear =
      if 0 < (darker.data.getD i Pixel.clear).a then (⟨255, 255, 255, 255⟩ : Pixel)
      else md.getD i Pixel.clear :=
  getD_range_map _ hi

lemma darkerFold_alpha (w h : ℕ) (layers : List ColorLayer) (md : List Pixel) {i : ℕ}
    (hi : i < h * w) :
    0 < ((layers.foldl (fun md dl => addDarkerLayer w h md dl.pixelData) md).getD
        i Pixel.clear).a ↔
      0 < (md.getD i Pixel.clear).a ∨
        ∃ dl ∈ layers, 0 < (dl.pixelData.data.getD i Pixel.clear).a := by
  induction layers generalizing md with
  | nil => simp
  | cons dl rest ih =>
    simp only [List.foldl_cons]
    rw [ih (addDarkerLayer w h md dl.pixelData), addDarkerLayer_getD w h md dl.pixelData hi]
    by_cases hd : 0 < (dl.pixelData.data.getD i Pixel.clear).a
    · rw [if_pos hd]
      constructor
      · intro _
        exact Or.inr ⟨dl, List.mem_cons_self dl rest, hd⟩
      · intro _
        exact Or.inl (by decide)
    · rw [if_neg hd]
      simp only [List.mem_cons]
      constructor
      · rintro (hmd | ⟨dl', hmem, hP⟩)
        · exact Or.inl hmd
        · exact Or.inr ⟨dl', Or.inr hmem, hP⟩
      · rintro (hmd | ⟨dl', rfl | hmem, hP⟩)
        · exact Or.inl hmd
        · exact absurd hP hd
        · exact Or.inr ⟨dl', hmem, hP⟩

lemma createDarkerMask_alpha (w h currentIndex : ℕ) (colorLayers : List ColorLayer)
    {i : ℕ} (hi : i < h * w) :
    0 < ((createDarkerColorMaskFromLayers w h currentIndex colorLayers).data.getD
        i Pixel.clear).a ↔
      ∃ j, currentIndex < j ∧ j < colorLayers.length ∧
        0 < ((colorLayers.getD j default).pixelData.data.getD i Pixel.clear).a := by
  unfold createDarkerColorMaskFromLayers
  rw [darkerFold_alpha w h _ _ hi]
  rw [getD_replicate_clear]
  simp only [Pixel.clear, Nat.lt_irrefl, false_or]
  constructor
  · rintro ⟨dl, hmem, hP⟩
    obtain ⟨j, hj, hdl⟩ := List.mem_iff_getElem.mp hmem
    have hlen : j + (currentIndex + 1) < colorLayers.length := by
      have := List.length_drop (currentIndex + 1) colorLayers
      omega
    refine ⟨currentIndex + 1 + j, by omega, by omega, ?_⟩
    have hget : colorLayers.getD (currentIndex + 1 + j) default = dl := by
      rw [List.getD_eq_getElem?_getD,
        List.getElem?_eq_getElem (by omega : currentIndex + 1 + j < colorLayers.length)]
      rw [← List.getElem_drop colorLayers]
      · exact hdl
    rw [hget]; exact hP
  · rintro ⟨j, hj1, hj2, hP⟩
    refine ⟨colorLayers.getD j default, ?_, hP⟩
    have hjd : j - (currentIndex + 1) < (colorLayers.drop (currentIndex + 1)).length := by
      rw [List.length_drop]; omega
    have : (colorLayers.drop (currentIndex + 1))[j - (currentIndex + 1)]
        = colorLayers.getD j default := by
      rw [List.getElem_drop colorLayers, List.getD_eq_getElem?_getD,
        List.getElem?_eq_getElem hj2]
      congr 1
      omega
    rw [← this]
    exact List.getElem_mem hjd

end TrapperController

/-- C2: for an ordered layer list (lightest to darkest), the mask built
by `createDarkerColorMaskFromLayers` for index `i` is opaque exactly at
pixels where some layer with index greater than `i` is opaque in its
stored original (pre-trapping) extraction; the darkest layer
(index N−1) gets an all-transparent mask; and dilating under that
all-transparent mask (`applyTrappingToLayer` at index N−1) yields no
opaque pixel that was not opaque in the darkest layer's original
extraction, so the darkest layer never expands. -/
theorem darker_mask_spec (w h : ℕ) (currentIndex : ℕ)
    (colorLayers : List TrapperController.ColorLayer)
    (hsz : ∀ L ∈ colorLayers, L.pixelData.width = w ∧ L.pixelData.height = h)
    (x y : ℕ) (hx : x < w) (hy : y < h) :
    (0 < ((TrapperController.createDarkerColorMaskFromLayers w h currentIndex
          colorLayers).pix x y).a ↔
      ∃ j, currentIndex < j ∧ j < colorLayers.length ∧
        0 < ((colorLayers.getD j default).pixelData.pix x y).a)
    ∧ (∀ x' y', ((TrapperController.createDarkerColorMaskFromLayers w h
          (colorLayers.length - 1) colorLayers).pix x' y').a = 0)
    ∧ (∀ trapPixels x' y', colorLayers ≠ [] → x' < w → y' < h →
        0 < ((TrapperController.applyTrappingToLayer w h trapPixels
            (colorLayers.length - 1) colorLayers).pix x' y').a →
        0 < ((colorLayers.getD (colorLayers.length - 1)
            default).pixelData.pix x' y').a) := by
  have hempty : (TrapperController.createDarkerColorMaskFromLayers w h
      (colorLayers.length - 1) colorLayers).data = List.replicate (h * w) Pixel.clear := by
    unfold TrapperController.createDarkerColorMaskFromLayers
    rw [List.drop_eq_nil_of_le (by omega)]
    rfl
  refine ⟨?_, ?_, ?_⟩
  · rw [show (TrapperController.createDarkerColorMaskFromLayers w h currentIndex
        colorLayers).pix x y = (TrapperController.createDarkerColorMaskFromLayers w h
        currentIndex colorLayers).data.getD (y * w + x) Pixel.clear from rfl]
    rw [TrapperController.createDarkerMask_alpha w h currentIndex colorLayers
      (index_lt hx hy)]
    constructor
    · rintro ⟨j, hj1, hj2, hop⟩
      have hw' := (hsz _ (getD_mem hj2)).1
      refine ⟨j, hj1, hj2, ?_⟩
      show 0 < ((colorLayers.getD j default).pixelData.data.getD
        (y * (colorLayers.getD j default).pixelData.width + x) Pixel.clear).a
      rw [hw']; exact hop
    · rintro ⟨j, hj1, hj2, hop⟩
      have hw' := (hsz _ (getD_mem hj2)).1
      refine ⟨j, hj1, hj2, ?_⟩
      have : (colorLayers.getD j default).pixelData.pix x y
          = (colorLayers.getD j default).pixelData.data.getD
            (y * (colorLayers.getD j default).pixelData.width + x) Pixel.clear := rfl
      rw [this, hw'] at hop
      exact hop
  · intro x' y'
    show ((TrapperController.createDarkerColorMaskFromLayers w h
      (colorLayers.length - 1) colorLayers).data.getD (y' * w + x') Pixel.clear).a = 0
    rw [hempty, getD_replicate_clear]
    rfl
  · intro trapPixels x' y' hne hx' hy' hop
    have hlen : 0 < colorLayers.length := List.length_pos.mpr hne
    have hmem : colorLayers.getD (colorLayers.length - 1) default ∈ colorLayers :=
      getD_mem (by omega)
    obtain ⟨hsw, hsh⟩ := hsz _ hmem
    unfold TrapperController.applyTrappingToLayer at hop
    unfold TrappingEngine.applyDilationWithMask at hop
    by_cases hr : trapPixels = 0
    · rw [if_pos hr] at hop; exact hop
    · rw [if_neg hr] at hop
      have hx'' : x' < (colorLayers.getD (colorLayers.length - 1)
          default).pixelData.width := by rw [hsw]; exact hx'
      have hy'' : y' < (colorLayers.getD (colorLayers.length - 1)
          default).pixelData.height := by rw [hsh]; exact hy'
      rcases TrappingEngine.dilateLoop_mask_invariant _ _ _ hx'' hy'' hop with hin | hmb
      · exact hin
      · exfalso
        have hidx : y' * (colorLayers.getD (colorLayers.length - 1)
            default).pixelData.width + x' < h * w := by
          rw [hsw]; exact index_lt hx' hy'
        simp only [TrappingEngine.maskBlocks, hempty, List.get?_eq_getElem?,
          List.getElem?_replicate, hidx, if_pos] at hmb
        simp [Pixel.clear] at hmb

/-- Witness for C2: in the two-layer 1×1 plan, the lighter layer's mask
is opaque at (0,0) because the darker black layer covers that pixel. -/
theorem darker_mask_spec_witness :
    ∃ j, 0 < j ∧ j < layersWB.length ∧
      0 < ((layersWB.getD j default).pixelData.pix 0 0).a :=
  (darker_mask_spec 1 1 0 layersWB (by decide) 0 0 (by decide) (by decide)).1.mp
    (by decide)

/-- C5: the pipeline's significance filter keeps exactly the palette
entries whose pixel count is at least
`max(100, round(totalPixels * 0.0001))`; on a 1000×1000 raster that
threshold is 100, so every color with fewer than 100 pixels is dropped;
more than 10 surviving colors fails with `TooManyColors` and zero
surviving colors fails with `NoSignificantColors`. -/
theorem significant_filter_spec :
    (∀ (colors : List ColorEntry) (n : ℕ) (c : ColorEntry),
      c ∈ TrapperController.significantColors colors n ↔
        c ∈ colors ∧ TrapperController.minPixelThreshold n ≤ (c.count : ℤ))
    ∧ TrapperController.minPixelThreshold 1000000 = 100
    ∧ (∀ (colors : List ColorEntry) (c : ColorEntry), c.count < 100 →
        c ∉ TrapperController.significantColors colors 1000000)
    ∧ (∀ (colors : List ColorEntry) (n : ℕ),
        (10 < (TrapperController.significantColors colors n).length →
          TrapperController.checkSignificantColors colors n = .error .tooManyColors)
        ∧ ((TrapperController.significantColors colors n).length = 0 →
          TrapperController.checkSignificantColors colors n = .error .noSignificantColors)) := by
  have hmem : ∀ (colors : List ColorEntry) (n : ℕ) (c : ColorEntry),
      c ∈ TrapperController.significantColors colors n ↔
        c ∈ colors ∧ TrapperController.minPixelThreshold n ≤ (c.count : ℤ) := by
    intro colors n c
    simp [TrapperController.significantColors, List.mem_filter]
  have hthr : TrapperController.minPixelThreshold 1000000 = 100 := by
    unfold TrapperController.minPixelThreshold TrapSizeParser.jsRound
    rw [ratFloor_eq_intFloor]
    norm_num
  refine ⟨hmem, hthr, ?_, ?_⟩
  · intro colors c hc hin
    obtain ⟨_, hge⟩ := (hmem colors 1000000 c).mp hin
    rw [hthr] at hge
    omega
  · intro colors n
    constructor
    · intro hgt
      unfold TrapperController.checkSignificantColors
      rw [if_pos hgt]
    · intro hz
      unfold TrapperController.checkSignificantColors
      rw [if_neg (by omega), if_pos hz]

/-- Witness for C5: the empty palette has zero significant colors and
fails with `NoSignificantColors`. -/
theorem significant_filter_spec_witness :
    TrapperController.checkSignificantColors [] 1000000 = .error .noSignificantColors :=
  (significant_filter_spec.2.2.2 [] 1000000).2 (by decide)

/-- C7: `extractSingleColor` keeps the source dimensions; a pixel whose
source pixel is opaque and exactly matches the target (r,g,b) becomes
that color with alpha forced to 255, every other pixel is zeroed; hence
every output alpha is 0 or 255. -/
theorem extract_single_color_spec (src : Raster) (color : ColorEntry) :
    (TrapperController.extractSingleColor src color).width = src.width
    ∧ (TrapperController.extractSingleColor src color).height = src.height
    ∧ (∀ x y, x < src.width → y < src.height →
        (TrapperController.extractSingleColor src color).pix x y =
          if 0 < (src.pix x y).a ∧ (src.pix x y).r = color.r ∧
              (src.pix x y).g = color.g ∧ (src.pix x y).b = color.b then
            (⟨color.r, color.g, color.b, 255⟩ : Pixel)
          else Pixel.clear)
    ∧ (∀ x y, ((TrapperController.extractSingleColor src color).pix x y).a = 0 ∨
        ((TrapperController.extractSingleColor src color).pix x y).a = 255) := by
  refine ⟨rfl, rfl, ?_, ?_⟩
  · intro x y hx hy
    show ((List.range (src.height * src.width)).map fun i =>
        let p := src.readLinear i
        if 0 < p.a ∧ p.r = color.r ∧ p.g = color.g ∧ p.b = color.b then
          (⟨p.r, p.g, p.b, 255⟩ : Pixel)
        else Pixel.clear).getD (y * src.width + x) Pixel.clear = _
    rw [getD_range_map _ (index_lt hx hy)]
    simp only [Raster.pix]
    by_cases hc : 0 < (src.readLinear (y * src.width + x)).a ∧
        (src.readLinear (y * src.width + x)).r = color.r ∧
        (src.readLinear (y * src.width + x)).g = color.g ∧
        (src.readLinear (y * src.width + x)).b = color.b
    · rw [if_pos hc, if_pos hc]
      obtain ⟨_, hr, hg, hb⟩ := hc
      rw [hr, hg, hb]
    · rw [if_neg hc, if_neg hc]
  · intro x y
    show (((List.range (src.height * src.width)).map fun i =>
        let p := src.readLinear i
        if 0 < p.a ∧ p.r = color.r ∧ p.g = color.g ∧ p.b = color.b then
          (⟨p.r, p.g, p.b, 255⟩ : Pixel)
        else Pixel.clear).getD (y * src.width + x) Pixel.clear).a = 0 ∨
      (((List.range (src.height * src.width)).map fun i =>
        let p := src.readLinear i
        if 0 < p.a ∧ p.r = color.r ∧ p.g = color.g ∧ p.b = color.b then
          (⟨p.r, p.g, p.b, 255⟩ : Pixel)
        else Pixel.clear).getD (y * src.width + x) Pixel.clear).a = 255
    by_cases hi : y * src.width + x < src.height * src.width
    · rw [getD_range_map _ hi]
      dsimp only
      split_ifs with h
      · right; rfl
      · left; rfl
    · rw [getD_range_map_ge _ hi]
      left; rfl

/-- Witness for C7: extracting red from the 2×1 fixture makes (0,0) the
red entry's color at alpha 255. -/
theorem extract_single_color_spec_witness :
    (TrapperController.extractSingleColor rasterRT redEntry).pix 0 0 =
      (⟨redEntry.r, redEntry.g, redEntry.b, 255⟩ : Pixel) := by
  have h := (extract_single_color_spec rasterRT redEntry).2.2.1 0 0
    (by decide) (by decide)
  rw [if_pos (by decide)] at h
  exact h

namespace TrappingEngine

lemma sumCounts_bumpColor (pal : List ColorEntry) (p : Pixel) :
    sumCounts (bumpColor pal p) = sumCounts pal + 1 := by
  induction pal with
  | nil => simp [bumpColor, sumCounts]
  | cons e rest ih =>
    unfold bumpColor
    split_ifs with h
    · simp only [sumCounts, List.map_cons, List.sum_cons] at ih ⊢
      omega
    · simp only [sumCounts, List.map_cons, List.sum_cons] at ih ⊢
      omega

lemma sumCounts_addPixelToPalette (pal : List ColorEntry) (p : Pixel) :
    sumCounts (addPixelToPalette pal p) =
      sumCounts pal + (if p.a = 0 then 0 else 1) := by
  unfold addPixelToPalette
  split_ifs with h
  · rfl
  · rw [sumCounts_bumpColor]

lemma sumCounts_foldl (l : List Pixel) :
    ∀ pal, sumCounts (l.foldl addPixelToPalette pal) =
      sumCounts pal + countOpaque l := by
  induction l with
  | nil => intro pal; simp [countOpaque]
  | cons p rest ih =>
    intro pal
    simp only [List.foldl_cons]
    rw [ih, sumCounts_addPixelToPalette]
    unfold countOpaque
    rw [List.countP_cons]
    by_cases hp : p.a = 0
    · simp [hp]
    · simp only [hp, if_false, Nat.pos_of_ne_zero hp, decide_true_eq_true, if_true]
      omega

lemma pixelScan_eq (r : Raster) (hwf : r.wf) : pixelScan r = r.data := by
  unfold Raster.wf at hwf
  unfold pixelScan Raster.readLinear
  apply List.ext_getElem?
  intro i
  by_cases h : i < r.height * r.width
  · have hd : i < r.data.length := by rw [hwf, Nat.mul_comm]; exact h
    simp [List.getElem?_map, List.getElem?_range, h, List.getD_eq_getElem?_getD,
      List.getElem?_eq_getElem hd]
  · have hd : ¬ i < r.data.length := by rw [hwf, Nat.mul_comm]; exact h
    rw [List.getElem?_eq_none (by simpa using Nat.le_of_not_lt h),
      List.getElem?_eq_none (by simpa using Nat.le_of_not_lt hd)]

end TrappingEngine

/-- C10: `analyzeColors` reports `totalPixels = width * height`, the
whole canvas area including fully transparent pixels, even though
transparent pixels are excluded from the palette counts (the pixel
counts sum exactly to the number of opaque pixels); consequently the
downstream significance threshold is computed from the whole canvas
area. -/
theorem analyze_total_pixels_spec (r : Raster) (hwf : r.wf) :
    (TrappingEngine.analyzeColors r).totalPixels = r.width * r.height
    ∧ TrappingEngine.sumCounts (TrappingEngine.analyzeColors r).colors
        = TrappingEngine.countOpaque r.data
    ∧ TrapperController.minPixelThreshold (TrappingEngine.analyzeColors r).totalPixels
        = TrapperController.minPixelThreshold (r.width * r.height) := by
  refine ⟨rfl, ?_, rfl⟩
  show TrappingEngine.sumCounts
    ((TrappingEngine.pixelScan r).foldl TrappingEngine.addPixelToPalette [])
      = TrappingEngine.countOpaque r.data
  rw [TrappingEngine.pixelScan_eq r hwf, TrappingEngine.sumCounts_foldl]
  simp [TrappingEngine.sumCounts]

/-- Witness for C10: the 2×1 fixture has totalPixels 2 but palette
counts summing to its single opaque pixel. -/
theorem analyze_total_pixels_spec_witness :
    TrappingEngine.sumCounts (TrappingEngine.analyzeColors rasterRT).colors
      = TrappingEngine.countOpaque rasterRT.data :=
  (analyze_total_pixels_spec rasterRT (by decide)).2.1

namespace TrapSizeParser

lemma splitOnChar_pair_contains (c : Char) :
    ∀ (l p1 p2 : List Char), splitOnChar c l = [p1, p2] → l.contains c = true := by
  intro l
  induction l with
  | nil =>
    intro p1 p2 h
    simp [splitOnChar] at h
  | cons x xs ih =>
    intro p1 p2 h
    unfold splitOnChar at h
    rcases hs : splitOnChar c xs with _ | ⟨r, rs⟩
    · rw [hs] at h
      simp at h
    · rw [hs] at h
      dsimp only at h
      by_cases hx : x = c
      · simp [List.contains_cons, hx]
      · rw [if_neg hx] at h
        injection h with h1 h2
        rw [h2] at hs
        have hxs := ih r p2 hs
        have hmem : c ∈ xs := by simpa using hxs
        simp [hmem]

lemma parse_dispatch (s : String) (hs : s ≠ "") :
    parse s = (if endsWithPt (jsTrim s.data) then parsePoints (jsTrim s.data)
      else if (jsTrim s.data).contains '/' then parseFraction (jsTrim s.data)
      else parseDecimal (jsTrim s.data)) := by
  unfold parse
  rw [if_neg hs]

/-- C6: `parse` fails with `InvalidFormat` whenever the residual text of
the dispatched notation is not numeric (`parseFloat` gives `NaN`), with
`DivisionByZero` for a fraction with numeric parts and zero denominator,
and with `NegativeValue` for a negative point value; in particular `""`
and `"abc"` fail with `InvalidFormat`, `"1/0"` with `DivisionByZero`,
and `"-4pt"` with `NegativeValue`. -/
theorem parse_failure_spec :
    (∀ s : String, s ≠ "" →
      endsWithPt (jsTrim s.data) = true →
      jsParseFloat (jsTrim ((jsTrim s.data).take ((jsTrim s.data).length - 2))) = none →
      parse s = .error .invalidFormat)
    ∧ (∀ (s : String) (p : ℚ), s ≠ "" →
      endsWithPt (jsTrim s.data) = true →
      jsParseFloat (jsTrim ((jsTrim s.data).take ((jsTrim s.data).length - 2))) = some p →
      p < 0 →
      parse s = .error .negativeValue)
    ∧ (∀ (s : String) (p1 p2 : List Char), s ≠ "" →
      endsWithPt (jsTrim s.data) = false →
      splitOnChar '/' (jsTrim s.data) = [p1, p2] →
      (jsParseFloat (jsTrim p1) = none ∨ jsParseFloat (jsTrim p2) = none) →
      parse s = .error .invalidFormat)
    ∧ (∀ (s : String) (p1 p2 : List Char), s ≠ "" →
      endsWithPt (jsTrim s.data) = false →
      splitOnChar '/' (jsTrim s.data) = [p1, p2] →
      jsParseFloat (jsTrim p1) ≠ none →
      jsParseFloat (jsTrim p2) = some 0 →
      parse s = .error .divisionByZero)
    ∧ (∀ s : String, s ≠ "" →
      endsWithPt (jsTrim s.data) = false →
      (jsTrim s.data).contains '/' = false →
      jsParseFloat (jsTrim s.data) = none →
      parse s = .error .invalidFormat)
    ∧ parse "" = .error .invalidFormat
    ∧ parse "abc" = .error .invalidFormat
    ∧ parse "1/0" = .error .divisionByZero
    ∧ parse "-4pt" = .error .negativeValue := by
  have hpt1 : ∀ s : String, s ≠ "" →
      endsWithPt (jsTrim s.data) = true →
      jsParseFloat (jsTrim ((jsTrim s.data).take ((jsTrim s.data).length - 2))) = none →
      parse s = .error .invalidFormat := by
    intro s hs hpt hnan
    rw [parse_dispatch s hs, if_pos hpt]
    unfold parsePoints
    dsimp only
    rw [hnan]
  have hpt2 : ∀ (s : String) (p : ℚ), s ≠ "" →
      endsWithPt (jsTrim s.data) = true →
      jsParseFloat (jsTrim ((jsTrim s.data).take ((jsTrim s.data).length - 2))) = some p →
      p < 0 →
      parse s = .error .negativeValue := by
    intro s p hs hpt hsome hneg
    rw [parse_dispatch s hs, if_pos hpt]
    unfold parsePoints
    dsimp only
    rw [hsome]
    dsimp only
    rw [if_pos hneg]
  have hfr1 : ∀ (s : String) (p1 p2 : List Char), s ≠ "" →
      endsWithPt (jsTrim s.data) = false →
      splitOnChar '/' (jsTrim s.data) = [p1, p2] →
      (jsParseFloat (jsTrim p1) = none ∨ jsParseFloat (jsTrim p2) = none) →
      parse s = .error .invalidFormat := by
    intro s p1 p2 hs hpt hsplit hdisj
    rw [parse_dispatch s hs, if_neg (by simp [hpt]),
      if_pos (splitOnChar_pair_contains '/' _ p1 p2 hsplit)]
    unfold parseFraction
    rw [hsplit]
    dsimp only
    rcases h1 : jsParseFloat (jsTrim p1) with _ | n <;>
      rcases h2 : jsParseFloat (jsTrim p2) with _ | d <;> try rfl
    rw [h1, h2] at hdisj
    simp at hdisj
  have hfr2 : ∀ (s : String) (p1 p2 : List Char), s ≠ "" →
      endsWithPt (jsTrim s.data) = false →
      splitOnChar '/' (jsTrim s.data) = [p1, p2] →
      jsParseFloat (jsTrim p1) ≠ none →
      jsParseFloat (jsTrim p2) = some 0 →
      parse s = .error .divisionByZero := by
    intro s p1 p2 hs hpt hsplit hnum hzero
    rw [parse_dispatch s hs, if_neg (by simp [hpt]),
      if_pos (splitOnChar_pair_contains '/' _ p1 p2 hsplit)]
    unfold parseFraction
    rw [hsplit]
    dsimp only
    rcases h1 : jsParseFloat (jsTrim p1) with _ | n
    · exact absurd h1 hnum
    · rw [hzero]
      dsimp only
      rw [if_pos rfl]
  have hdec : ∀ s : String, s ≠ "" →
      endsWithPt (jsTrim s.data) = false →
      (jsTrim s.data).contains '/' = false →
      jsParseFloat (jsTrim s.data) = none →
      parse s = .error .invalidFormat := by
    intro s hs hpt hcont hnan
    rw [parse_dispatch s hs, if_neg (by simp [hpt]), if_neg (by simpa using hcont)]
    unfold parseDecimal
    rw [hnan]
  refine ⟨hpt1, hpt2, hfr1, hfr2, hdec, rfl, rfl, ?_, ?_⟩
  · have h0 : jsParseFloat (jsTrim ['0']) =
        some ((1 : ℚ) * (((0 : ℕ) : ℚ) + ((0 : ℕ) : ℚ) / (10 : ℚ) ^ (0 : ℕ))
          * (10 : ℚ) ^ (0 : ℤ)) := rfl
    have h0' : jsParseFloat (jsTrim ['0']) = some 0 := by
      rw [h0]; congr 1; norm_num
    exact hfr2 "1/0" ['1'] ['0'] (by decide) rfl rfl (by decide) h0'
  · have h4 : jsParseFloat (jsTrim ((jsTrim "-4pt".data).take
        ((jsTrim "-4pt".data).length - 2))) =
        some ((-1 : ℚ) * (((4 : ℕ) : ℚ) + ((0 : ℕ) : ℚ) / (10 : ℚ) ^ (0 : ℕ))
          * (10 : ℚ) ^ (0 : ℤ)) := rfl
    exact hpt2 "-4pt" _ (by decide) rfl h4 (by norm_num)

/-- Witness for C6: the non-numeric decimal input `"xyz"` fails with
`InvalidFormat` through the decimal branch. -/
theorem parse_failure_spec_witness :
    parse "xyz" = .error .invalidFormat :=
  parse_failure_spec.2.2.2.2.1 "xyz" (by decide) rfl rfl rfl

/-- C9 counterexample: `parse` succeeds on the decimal input `"-0.5"`
with the negative value −1/2, so a successful `parse` is not always
non-negative. -/
theorem parse_nonneg_counterexample :
    parse "-0.5" = .ok (-(1 / 2) : ℚ) ∧ (-(1 / 2) : ℚ) < 0 := by
  constructor
  · have hd : jsParseFloat (jsTrim "-0.5".data) =
        some ((-1 : ℚ) * (((0 : ℕ) : ℚ) + ((5 : ℕ) : ℚ) / (10 : ℚ) ^ (1 : ℕ))
          * (10 : ℚ) ^ (0 : ℤ)) := rfl
    have hd' : jsParseFloat (jsTrim "-0.5".data) = some (-(1 / 2)) := by
      rw [hd]; congr 1; norm_num
    show parseDecimal (jsTrim "-0.5".data) = _
    unfold parseDecimal
    rw [hd']
  · norm_num

/-- C9 amended: only the points notation guarantees a non-negative
result from `parse` (its branch rejects negative point values), and
a successful `validateRange` returns a range with `0 ≤ min ≤ max`; the
fraction and decimal branches of `parse` can return negative values. -/
theorem parse_points_nonneg :
    (∀ (s : String) (v : ℚ),
      endsWithPt (jsTrim s.data) = true →
      parse s = .ok v → 0 ≤ v)
    ∧ (∀ (minSpec maxSpec : String) (mn mx : ℚ),
      validateRange minSpec maxSpec = .ok (mn, mx) →
      0 ≤ mn ∧ 0 ≤ mx ∧ mn ≤ mx) := by
  have hpts : ∀ (s : String) (v : ℚ),
      endsWithPt (jsTrim s.data) = true →
      parse s = .ok v → 0 ≤ v := by
    intro s v hpt hok
    by_cases hs : s = ""
    · rw [hs] at hok
      exact absurd hok (by simp [parse])
    · rw [parse_dispatch s hs, if_pos hpt] at hok
      unfold parsePoints at hok
      dsimp only at hok
      rcases hp : jsParseFloat (jsTrim ((jsTrim s.data).take
          ((jsTrim s.data).length - 2))) with _ | p
      · rw [hp] at hok
        exact absurd hok (by simp)
      · rw [hp] at hok
        dsimp only at hok
        by_cases hneg : p < 0
        · rw [if_pos hneg] at hok
          exact absurd hok (by simp)
        · rw [if_neg hneg] at hok
          injection hok with hok
          rw [← hok]
          exact div_nonneg (le_of_not_lt hneg) (by norm_num)
  refine ⟨hpts, ?_⟩
  intro minSpec maxSpec mn mx h
  unfold validateRange at h
  rcases h1 : parse minSpec with e1 | mn'
  · rw [h1] at h; exact absurd h (by simp)
  · rw [h1] at h
    rcases h2 : parse maxSpec with e2 | mx'
    · rw [h2] at h; exact absurd h (by simp)
    · rw [h2] at h
      dsimp only at h
      by_cases hneg : (decide (mn' < 0) || decide (mx' < 0)) = true
      · rw [if_pos hneg] at h; exact absurd h (by simp)
      · rw [if_neg hneg] at h
        by_cases hord : mx' < mn'
        · rw [if_pos hord] at h; exact absurd h (by simp)
        · rw [if_neg hord] at h
          injection h with h
          rw [Prod.mk.injEq] at h
          obtain ⟨hmn, hmx⟩ := h
          simp only [Bool.or_eq_true, decide_eq_true_eq] at hneg
          push_neg at hneg
          refine ⟨hmn ▸ hneg.1, hmx ▸ hneg.2, ?_⟩
          rw [← hmn, ← hmx]
          exact le_of_not_lt hord

/-- Witness for C9 (amended): `parse "4pt"` succeeds with 4/72 ≥ 0. -/
theorem parse_points_nonneg_witness : (0 : ℚ) ≤
    ((1 : ℚ) * (((4 : ℕ) : ℚ) + ((0 : ℕ) : ℚ) / (10 : ℚ) ^ (0 : ℕ))
      * (10 : ℚ) ^ (0 : ℤ)) / 72 := by
  have h4 : jsParseFloat (jsTrim ((jsTrim "4pt".data).take
      ((jsTrim "4pt".data).length - 2))) =
      some ((1 : ℚ) * (((4 : ℕ) : ℚ) + ((0 : ℕ) : ℚ) / (10 : ℚ) ^ (0 : ℕ))
        * (10 : ℚ) ^ (0 : ℤ)) := rfl
  have hok : parse "4pt" = .ok (((1 : ℚ) * (((4 : ℕ) : ℚ) + ((0 : ℕ) : ℚ)
      / (10 : ℚ) ^ (0 : ℕ)) * (10 : ℚ) ^ (0 : ℤ)) / 72) := by
    rw [parse_dispatch "4pt" (by decide),
      if_pos (show endsWithPt (jsTrim "4pt".data) = true from rfl)]
    unfold parsePoints
    dsimp only
    rw [h4]
    dsimp only
    rw [if_neg (by norm_num)]
  exact parse_points_nonneg.1 "4pt" _ rfl hok

end TrapSizeParser

/-- C4: `calculateLayerTrap` returns `minTrap` for a single layer and
otherwise `maxTrap - (i/(N-1))·(maxTrap - minTrap)`; under the general
rule index 0 yields `maxTrap` and index `N-1` yields `minTrap`;
`calculateLayerTrap 0 1 0 (1/32) = 0`; and `calculateLayerTrap 2 5 0
(1/32)` lies strictly between `0` and `1/32`. -/
theorem calculateLayerTrap_spec :
    (∀ minTrap maxTrap : ℚ, ∀ i : ℕ,
      TrapSizeParser.calculateLayerTrap i 1 minTrap maxTrap = minTrap)
    ∧ (∀ minTrap maxTrap : ℚ, ∀ i N : ℕ, 2 ≤ N →
      TrapSizeParser.calculateLayerTrap i N minTrap maxTrap =
        maxTrap - ((i : ℚ) / ((N : ℚ) - 1)) * (maxTrap - minTrap))
    ∧ (∀ minTrap maxTrap : ℚ, ∀ N : ℕ, 2 ≤ N →
      TrapSizeParser.calculateLayerTrap 0 N minTrap maxTrap = maxTrap)
    ∧ (∀ minTrap maxTrap : ℚ, ∀ N : ℕ, 2 ≤ N →
      TrapSizeParser.calculateLayerTrap (N - 1) N minTrap maxTrap = minTrap)
    ∧ TrapSizeParser.calculateLayerTrap 0 1 0 (1 / 32) = 0
    ∧ (0 < TrapSizeParser.calculateLayerTrap 2 5 0 (1 / 32)
        ∧ TrapSizeParser.calculateLayerTrap 2 5 0 (1 / 32) < 1 / 32) := by
  refine ⟨?_, ?_, ?_, ?_, ?_, ?_⟩
  · intro minTrap maxTrap i
    simp [TrapSizeParser.calculateLayerTrap]
  · intro minTrap maxTrap i N hN
    have : N ≠ 1 := by omega
    simp [TrapSizeParser.calculateLayerTrap, this]
  · intro minTrap maxTrap N hN
    have : N ≠ 1 := by omega
    simp [TrapSizeParser.calculateLayerTrap, this]
  · intro minTrap maxTrap N hN
    have h1 : N ≠ 1 := by omega
    have h2 : ((N : ℚ) - 1) ≠ 0 := by
      have : (2 : ℚ) ≤ (N : ℚ) := by exact_mod_cast hN
      intro h; rw [sub_eq_zero] at h; rw [h] at this; norm_num at this
    have h3 : ((N - 1 : ℕ) : ℚ) = (N : ℚ) - 1 := by
      have : 1 ≤ N := by omega
      push_cast [this]; ring
    simp only [TrapSizeParser.calculateLayerTrap, h1, if_false, h3]
    field_simp
  · simp [TrapSizeParser.calculateLayerTrap]
  · constructor <;> norm_num [TrapSizeParser.calculateLayerTrap]

/-- Witness for C4: instantiated at `N = 5`, `i = 2`,
`min = 0`, `max = 1/32`. -/
theorem calculateLayerTrap_spec_witness :
    TrapSizeParser.calculateLayerTrap 2 5 0 (1 / 32) =
      (1 / 32 : ℚ) - ((2 : ℚ) / ((5 : ℚ) - 1)) * ((1 / 32 : ℚ) - 0) :=
  calculateLayerTrap_spec.2.1 0 (1 / 32) 2 5 (by norm_num)
